import Mathlib

/-!
Shallow embedding of the data-resolution and numeric-transformation layer of
the geochem-plots QGIS plugin (`geochem_dock.py`): field-name resolution,
unit conversion, derived quantities (Mg#), REE normalization, custom XY
ratio construction, ternary projection and discrimination-diagram
coordinate calculators.  Raw attribute cells are modelled by an inductive
`Cell`; Python `float(...)` with its `ValueError`/`TypeError` handling is
modelled by `Cell.parseFloat : Cell → Option ℚ`.  Numeric values are
modelled by ℚ.
-/

namespace GeochemPlots

/-- Python `str.upper()` restricted to the ASCII field names used here. -/
def strUpper (s : String) : String := String.mk (s.data.map Char.toUpper)

/-- Python `str.lower()`. -/
def strLower (s : String) : String := String.mk (s.data.map Char.toLower)

/-- Python `str.capitalize()`: first character upper-cased, rest lower-cased. -/
def strCapitalize (s : String) : String :=
  match s.data with
  | [] => String.mk []
  | c :: cs => String.mk (Char.toUpper c :: cs.map Char.toLower)

/-- Character count of a string (Python `len`). -/
def strLen (s : String) : ℕ := s.data.length

/-- Python slicing `s[n:]` (by characters). -/
def strDrop (s : String) (n : ℕ) : String := String.mk (s.data.drop n)

/-- Python `s.startswith(pre)`. -/
def strStarts (s pre : String) : Bool := decide (s.data.take pre.data.length = pre.data)

/-- Python `sub in s` (substring containment). -/
def strContains (s sub : String) : Bool :=
  (List.range (strLen s + 1)).any (fun i => strStarts (strDrop s i) sub)

/-- A raw attribute cell: QGIS NULL, a numeric value (also covering numeric
strings, which Python `float` parses), or a non-numeric/blank string. -/
inductive Cell where
  | null : Cell
  | num : ℚ → Cell
  | text : String → Cell
deriving DecidableEq

/-- Python `float(cell)` under `try/except (ValueError, TypeError)`:
`float(NULL)` raises TypeError, `float` of a blank or non-numeric string
raises ValueError, so only numeric cells produce a value. -/
def Cell.parseFloat : Cell → Option ℚ
  | Cell.num q => some q
  | _ => none

/-- A feature (sample row): a map from field name to raw cell. -/
def Feature : Type := String → Cell

/-- The exact-candidate pattern list built by `find_element_field`. -/
def patternList (element : String) : List String :=
  [element, strUpper element, strLower element, strCapitalize element,
   element ++ "_ppm", strUpper element ++ "_ppm", strLower element ++ "_ppm",
   element ++ "_PPM", strUpper element ++ "_PPM", strLower element ++ "_PPM",
   element ++ "_ppb", strUpper element ++ "_ppb", element ++ "_PPB",
   element ++ "_pct", strUpper element ++ "_pct", element ++ "_PCT",
   element ++ "_wt", element ++ "_WT", element ++ "_wtpct", element ++ "_wt_pct",
   element ++ "(ppm)", element ++ " (ppm)", element ++ "(PPM)", element ++ "_[ppm]"]

/-- The `oxide_forms` dictionary: conventional oxide reporting forms for the
ten elements that have one. -/
def oxide_forms (element : String) : Option (List String) :=
  if element = "Ti" then some ["TiO2_pct", "TiO2_PCT", "TiO2_wt", "TiO2", "tio2_pct", "TIO2_PCT"]
  else if element = "Fe" then some ["Fe2O3_pct", "Fe2O3T_pct", "FeO_pct", "Fe2O3_PCT", "FeOT_pct", "FeO_PCT"]
  else if element = "Mn" then some ["MnO_pct", "MnO_PCT", "MnO_wt", "MnO"]
  else if element = "Mg" then some ["MgO_pct", "MgO_PCT", "MgO_wt", "MgO"]
  else if element = "Ca" then some ["CaO_pct", "CaO_PCT", "CaO_wt", "CaO"]
  else if element = "Na" then some ["Na2O_pct", "Na2O_PCT", "Na2O_wt", "Na2O"]
  else if element = "K" then some ["K2O_pct", "K2O_PCT", "K2O_wt", "K2O"]
  else if element = "P" then some ["P2O5_pct", "P2O5_PCT", "P2O5_wt", "P2O5"]
  else if element = "Si" then some ["SiO2_pct", "SiO2_PCT", "SiO2_wt", "SiO2"]
  else if element = "Al" then some ["Al2O3_pct", "Al2O3_PCT", "Al2O3_wt", "Al2O3"]
  else none

/-- Full candidate list: base patterns, extended by oxide forms when the
element has them. -/
def allPatterns (element : String) : List String :=
  patternList element ++ (match oxide_forms element with
    | some l => l
    | none => [])

/-- The fixed allow-list of upper-cased remainders accepted by the prefix
scan fallback. -/
def suffixAllowList : List String :=
  ["", "_PPM", "_PPB", "_PCT", "_WT", "_WTPCT",
   "_WT_PCT", "(PPM)", " (PPM)", "_[PPM]", "_WT%", "PPM", "PPB",
   "O2_PCT", "O_PCT", "2O3_PCT", "2O_PCT", "2O5_PCT"]

/-- Predicate of the prefix-scan fallback: the upper-cased field name starts
with the upper-cased element symbol and the remainder is allow-listed. -/
def prefixScanHit (element_upper field_name : String) : Bool :=
  strStarts (strUpper field_name) element_upper &&
    suffixAllowList.contains (strDrop (strUpper field_name) (strLen element_upper))

/-- `find_element_field(layer, element)`: first try every exact candidate
pattern against the schema's field names; if none is present, fall back to
the prefix scan in schema iteration order. -/
def find_element_field (field_names : List String) (element : String) : Option String :=
  let element_upper := strUpper element
  match (allPatterns element).find? (fun p => field_names.contains p) with
  | some p => some p
  | none => field_names.find? (fun f => prefixScanHit element_upper f)

example : find_element_field ["TiO2_pct"] "Ti" = some "TiO2_pct" := by decide
example : find_element_field ["ZRPPM"] "Zr" = some "ZRPPM" := by decide
example : find_element_field ["ZR_XYZ"] "Zr" = none := by decide
example : find_element_field ["MgO_pct", "FeOT_pct"] "FeO" = none := by decide
example : find_element_field ["MgO_pct", "FeOT_pct"] "FeOT" = some "FeOT_pct" := by decide

/-- `get_element_value(feature, layer, element, convert_to_ppm)`: resolve the
field, parse the raw cell, and when `convert_to_ppm` multiply by the
stoichiometric factor for TiO2/MnO/P2O5 weight-percent field names. -/
def get_element_value (feature : Feature) (field_names : List String)
    (element : String) (convert_to_ppm : Bool) : Option ℚ :=
  match find_element_field field_names element with
  | none => none
  | some field_name =>
    match (feature field_name).parseFloat with
    | none => none
    | some value =>
      if convert_to_ppm then
        let field_upper := strUpper field_name
        if strContains field_upper "TIO2" &&
            (strContains field_upper "PCT" || strContains field_upper "WT") then
          some (value * 5995)
        else if strContains field_upper "MNO" &&
            (strContains field_upper "PCT" || strContains field_upper "WT") then
          some (value * 7745)
        else if strContains field_upper "P2O5" &&
            (strContains field_upper "PCT" || strContains field_upper "WT") then
          some (value * 4364)
        else some value
      else some value

/-- The stoichiometric ppm-conversion factor applied by `get_element_value`
for a resolved field name (1 when no conversion applies). -/
def conversionFactor (field_name : String) : ℚ :=
  let field_upper := strUpper field_name
  if strContains field_upper "TIO2" &&
      (strContains field_upper "PCT" || strContains field_upper "WT") then 5995
  else if strContains field_upper "MNO" &&
      (strContains field_upper "PCT" || strContains field_upper "WT") then 7745
  else if strContains field_upper "P2O5" &&
      (strContains field_upper "PCT" || strContains field_upper "WT") then 4364
  else 1

/-- Molar weight constant `MW_MGO`. -/
def MW_MGO : ℚ := 40.304

/-- Molar weight constant `MW_FEO`. -/
def MW_FEO : ℚ := 71.844

/-- The 14-member `REE_ELEMENTS` list. -/
def REE_ELEMENTS : List String :=
  ["La", "Ce", "Pr", "Nd", "Sm", "Eu", "Gd", "Tb", "Dy", "Ho", "Er", "Tm", "Yb", "Lu"]

/-- A normalization table (`CHONDRITE_VALUES` / `PRIMITIVE_MANTLE_VALUES`):
an association list from element symbol to reference concentration. -/
def NormTable : Type := List (String × ℚ)

/-- Python `dict.get`. -/
def normLookup (t : NormTable) (k : String) : Option ℚ :=
  (t.find? (fun p => p.1 = k)).map (fun p => p.2)

/-- `CHONDRITE_VALUES` (Sun & McDonough CI chondrite). -/
def CHONDRITE_VALUES : NormTable :=
  [("Ba", 2.41), ("Rb", 2.32), ("Cs", 0.188), ("Sr", 7.26), ("K", 545), ("K2O", 0.0545),
   ("Th", 0.029), ("U", 0.0074), ("Nb", 0.246), ("Ta", 0.014), ("Zr", 3.87), ("Hf", 0.1066),
   ("Ti", 445), ("TiO2", 0.0728), ("P", 1220), ("P2O5", 0.28),
   ("La", 0.237), ("Ce", 0.612), ("Pr", 0.095), ("Nd", 0.467), ("Sm", 0.153), ("Eu", 0.058),
   ("Gd", 0.2055), ("Tb", 0.0374), ("Dy", 0.254), ("Ho", 0.0566), ("Er", 0.1655),
   ("Tm", 0.0255), ("Yb", 0.170), ("Lu", 0.0254), ("Y", 1.57), ("Sc", 5.92), ("Pb", 2.47)]

/-- `PRIMITIVE_MANTLE_VALUES`. -/
def PRIMITIVE_MANTLE_VALUES : NormTable :=
  [("Ba", 6.6), ("Rb", 0.6), ("Cs", 0.021), ("Sr", 19.9), ("K", 250),
   ("Th", 0.0795), ("U", 0.0203), ("Nb", 0.658), ("Ta", 0.037),
   ("La", 0.648), ("Ce", 1.675), ("Pr", 0.254), ("Nd", 1.25), ("Sm", 0.406),
   ("Eu", 0.154), ("Gd", 0.544), ("Tb", 0.099), ("Dy", 0.674), ("Ho", 0.149),
   ("Er", 0.438), ("Tm", 0.068), ("Yb", 0.441), ("Lu", 0.0675), ("Y", 4.3),
   ("Zr", 10.5), ("Hf", 0.283), ("Ti", 1300), ("P", 95), ("Pb", 0.15), ("Sc", 16.2)]

/-- The Mg# arithmetic on parsed MgO and FeO weight-percent values:
molar Mg = MgO/40.304, molar Fe = 0.9·FeO/71.844; `None` when the
denominator is ≤ 0, else 100·Mg/(Mg+Fe). -/
def mgNumberOf (mgo_val feo_val : ℚ) : Option ℚ :=
  let mg_molar := mgo_val / MW_MGO
  let fe_molar := 0.9 * feo_val / MW_FEO
  if mg_molar + fe_molar ≤ 0 then none
  else some (100 * mg_molar / (mg_molar + fe_molar))

/-- The FeO-value resolution chain of the Mg# branch: a resolved `FeO`
field preferentially, else `FeOT`, else `Fe2O3` scaled by 0.8998; each
returning `None` on parse failure. -/
def resolvedFeoValue (feature : Feature) (field_names : List String) : Option ℚ :=
  match find_element_field field_names "FeO" with
  | some f => (feature f).parseFloat
  | none =>
    match find_element_field field_names "FeOT" with
    | some f => (feature f).parseFloat
    | none =>
      match find_element_field field_names "Fe2O3" with
      | some f => ((feature f).parseFloat).map (fun v => v * 0.8998)
      | none => none

/-- The `Mg#` branch of `get_custom_element_value`: resolve MgO and the FeO
chain, parse both, and apply `mgNumberOf`; `None` on any failure. -/
def mgSharpValue (feature : Feature) (field_names : List String) : Option ℚ :=
  match resolvedFeoValue feature field_names with
  | none => none
  | some feo_val =>
    match find_element_field field_names "MgO" with
    | none => none
    | some mgo_field =>
      match (feature mgo_field).parseFloat with
      | none => none
      | some mgo_val => mgNumberOf mgo_val feo_val

/-- `get_custom_element_value(feature, layer, element_name, normalize,
norm_values)`: `1 (none)` is the constant 1; `Mg#` is the magnesium number;
otherwise resolve and parse the field and divide by the normalization value
when `normalize` is set, the table has an entry for the symbol, and the
entry is positive. -/
def get_custom_element_value (feature : Feature) (field_names : List String)
    (element_name : String) (normalize : Bool) (norm_values : Option NormTable) :
    Option ℚ :=
  if element_name = "1 (none)" then some 1
  else if element_name = "Mg#" then mgSharpValue feature field_names
  else
    match find_element_field field_names element_name with
    | none => none
    | some field_name =>
      match (feature field_name).parseFloat with
      | none => none
      | some value =>
        match norm_values with
        | some t =>
          if normalize && !t.isEmpty && (normLookup t element_name).isSome then
            match normLookup t element_name with
            | some norm_val => if norm_val ≠ 0 ∧ norm_val > 0 then some (value / norm_val) else some value
            | none => some value
          else some value
        | none => some value

/-- `ternary_to_cartesian(a, b, c)`: `None` models the (NaN, NaN) output for
a zero component sum; otherwise normalize by the sum and project.  Because
`y = (√3/2)·c'` is irrational, the second component returned here is the
coefficient `k` with `y = k·√3`, i.e. `k = c'/2`; the first component is
`x = 0.5·(2·b' + c')` directly. -/
def ternary_to_cartesian (a b c : ℚ) : Option (ℚ × ℚ) :=
  let total := a + b + c
  if total = 0 then none
  else
    let b' := b / total
    let c' := c / total
    some (0.5 * (2 * b' + c'), c' / 2)

/-- Membership in the closed triangle with vertices (0,0), (1,0),
(1/2, √3/2), as a convex combination of the three vertices, over ℝ. -/
def inUnitTriangle (x y : ℝ) : Prop :=
  ∃ wa wb wc : ℝ, 0 ≤ wa ∧ 0 ≤ wb ∧ 0 ≤ wc ∧ wa + wb + wc = 1 ∧
    x = wa * 0 + wb * 1 + wc * (1 / 2) ∧
    y = wa * 0 + wb * 0 + wc * (Real.sqrt 3 / 2)

/-- `Pearce1984_YNb.calculate_coordinates`: (Y, Nb) when both resolve and
are strictly positive, else (None, None). -/
def Pearce1984_YNb_calc (feature : Feature) (field_names : List String) :
    Option ℚ × Option ℚ :=
  match get_element_value feature field_names "Nb" true,
        get_element_value feature field_names "Y" true with
  | some nb, some y =>
    if 0 < nb ∧ 0 < y then (some y, some nb) else (none, none)
  | _, _ => (none, none)

/-- `Meschede1986_Ternary.calculate_coordinates`: (Zr/4, Y, Nb·2) when all
three resolve and are ≥ 0, else the all-None triple. -/
def Meschede1986_calc (feature : Feature) (field_names : List String) :
    Option ℚ × Option ℚ × Option ℚ :=
  match get_element_value feature field_names "Zr" true,
        get_element_value feature field_names "Nb" true,
        get_element_value feature field_names "Y" true with
  | some zr, some nb, some y =>
    if 0 ≤ zr ∧ 0 ≤ nb ∧ 0 ≤ y then (some (zr / 4), some y, some (nb * 2))
    else (none, none, none)
  | _, _, _ => (none, none, none)

/-- `generate_discrimination_diagram`'s valid count: the number of samples
whose first coordinate is non-null. -/
def discrimValidCount (data : List (Option ℚ × Option ℚ × Option ℚ)) : ℕ :=
  data.countP (fun coords => coords.1.isSome)

/-- The number of ternary samples that actually produce a drawable point:
all three coordinates non-null and the ternary projection not NaN. -/
def ternaryPlottedCount (data : List (Option ℚ × Option ℚ × Option ℚ)) : ℕ :=
  data.countP (fun coords =>
    match coords with
    | (some a, some b, some c) => (ternary_to_cartesian a b c).isSome
    | _ => false)

/-- Lexicographic code-point comparison on character lists: the order
Python's `sorted` uses on strings. -/
def charListLt : List Char → List Char → Bool
  | [], [] => false
  | [], _ :: _ => true
  | _ :: _, [] => false
  | a :: as, b :: bs =>
    if a.val < b.val then true
    else if b.val < a.val then false
    else charListLt as bs

/-- Python string `<` (lexicographic by code point). -/
def strLtb (s t : String) : Bool := charListLt s.data t.data

/-- Insertion of a string into a sorted list under Python's lexicographic
code-point order. -/
def insertSortedStr (s : String) : List String → List String
  | [] => [s]
  | t :: ts => if strLtb s t then s :: t :: ts else t :: insertSortedStr s ts

/-- Python `sorted` on a list of strings. -/
def sortStrings (l : List String) : List String :=
  l.foldr insertSortedStr []

/-- The set `elements_needed` of `generate_custom_xy_plot`, as a
duplicate-free list: each selected symbol contributes itself, except that
`1 (none)` contributes nothing and `Mg#` contributes `MgO` and `FeO`. -/
def neededElements (syms : List String) : List String :=
  (syms.flatMap (fun s =>
    if s = "1 (none)" then []
    else if s = "Mg#" then ["MgO", "FeO"]
    else [s])).dedup

/-- `missing_elements`: the needed symbols, in sorted order, that resolve
to no field. -/
def missingElements (field_names : List String) (syms : List String) : List String :=
  (sortStrings (neededElements syms)).filter
    (fun e => (find_element_field field_names e).isNone)

/-- One axis of the custom XY plot: numerator over denominator via
`get_custom_element_value` (normalizing an operand exactly when a table is
selected and the operand's symbol is an REE), null unless both operands are
non-null and strictly positive. -/
def customAxisValue (feature : Feature) (field_names : List String)
    (num denom : String) (norm_values : Option NormTable) : Option ℚ :=
  let num_val := get_custom_element_value feature field_names num
    (norm_values.isSome && REE_ELEMENTS.contains num) norm_values
  let denom_val := get_custom_element_value feature field_names denom
    (norm_values.isSome && REE_ELEMENTS.contains denom) norm_values
  match num_val, denom_val with
  | some n, some d => if 0 < n ∧ 0 < d then some (n / d) else none
  | _, _ => none

/-- Outcome of `generate_custom_xy_plot`: an early "missing elements"
warning, a "no valid data" warning, or the per-sample coordinate pairs with
the valid count. -/
inductive XYResult where
  | missing : List String → XYResult
  | noValidData : XYResult
  | plot : List (Option ℚ × Option ℚ) → ℕ → XYResult
deriving DecidableEq

/-- `generate_custom_xy_plot`: check the needed element symbols resolve,
then compute per-sample axis values and count samples valid on both axes. -/
def generate_custom_xy_plot (features : List Feature) (field_names : List String)
    (x_num x_denom y_num y_denom : String) (norm_values : Option NormTable) :
    XYResult :=
  let missing := missingElements field_names [x_num, x_denom, y_num, y_denom]
  if missing.isEmpty then
    let data := features.map (fun f =>
      (customAxisValue f field_names x_num x_denom norm_values,
       customAxisValue f field_names y_num y_denom norm_values))
    let valid_count := data.countP (fun p => p.1.isSome && p.2.isSome)
    if valid_count = 0 then XYResult.noValidData
    else XYResult.plot data valid_count
  else XYResult.missing missing

/-- A concrete sample with MgO = 8.0 wt% and FeO = 10.0 wt%. -/
def sampleMgFe : Feature := fun f =>
  if f = "MgO_pct" then Cell.num 8
  else if f = "FeO_pct" then Cell.num 10
  else Cell.null

/-- A concrete sample with a P2O5 weight-percent field holding 10.0. -/
def sampleP2O5 : Feature := fun f =>
  if f = "P2O5_pct" then Cell.num 10 else Cell.null

/-- A concrete sample with a TiO2 weight-percent field holding 1.0. -/
def sampleTi : Feature := fun f =>
  if f = "TiO2_pct" then Cell.num 1 else Cell.null

/-- A concrete sample with La = 2.37 ppm. -/
def sampleLa : Feature := fun f =>
  if f = "La" then Cell.num 2.37 else Cell.null

/-- A concrete sample with Nb = 10 ppm and Y = 5 ppm. -/
def sampleNbY : Feature := fun f =>
  if f = "Nb" then Cell.num 10
  else if f = "Y" then Cell.num 5
  else Cell.null

/-- A concrete sample with Nb = 10 ppm and Y = 0 ppm. -/
def sampleNbY0 : Feature := fun f =>
  if f = "Nb" then Cell.num 10
  else if f = "Y" then Cell.num 0
  else Cell.null

/-- A concrete sample with Zr = Nb = Y = 0 ppm. -/
def sampleZero : Feature := fun f =>
  if f = "Zr" then Cell.num 0
  else if f = "Nb" then Cell.num 0
  else if f = "Y" then Cell.num 0
  else Cell.null

/-- A concrete sample with MgO = 8.0 wt% and FeOT = 10.0 wt% (no plain FeO
field in the schema). -/
def sampleMgFeOT : Feature := fun f =>
  if f = "MgO_pct" then Cell.num 8
  else if f = "FeOT_pct" then Cell.num 10
  else Cell.null

/-- Claim C4: `get_element_value` returns null when the field is unresolved
or the raw cell is null/blank/non-numeric; with `convert_to_ppm` it
multiplies the parsed value by exactly the elif-chain factor of
`conversionFactor` (5995 for TIO2+PCT/WT names, 7745 for MNO+PCT/WT, 4364
for P2O5+PCT/WT, and 1 — no conversion — in every other case), and without
`convert_to_ppm` it returns the parsed value unchanged.  A P2O5+PCT field
with raw value 10.0 yields 43640.0 when converting and 10.0 when not. -/
theorem C4_get_element_value_conversion :
    (∀ (feature : Feature) (fields : List String) (element : String),
      (find_element_field fields element = none →
        ∀ convert, get_element_value feature fields element convert = none) ∧
      (∀ fn, find_element_field fields element = some fn →
        (feature fn).parseFloat = none →
        ∀ convert, get_element_value feature fields element convert = none) ∧
      (∀ fn v, find_element_field fields element = some fn →
        (feature fn).parseFloat = some v →
        get_element_value feature fields element true =
          some (v * conversionFactor fn) ∧
        get_element_value feature fields element false = some v)) ∧
    get_element_value sampleP2O5 ["P2O5_pct"] "P" true = some 43640 ∧
    get_element_value sampleP2O5 ["P2O5_pct"] "P" false = some 10 := by
  refine ⟨fun feature fields element => ⟨?_, ?_, ?_⟩, ?_, ?_⟩
  · intro h convert
    unfold get_element_value
    rw [h]
  · intro fn h hp convert
    unfold get_element_value
    rw [h]
    dsimp only
    rw [hp]
  · intro fn v h hp
    unfold get_element_value conversionFactor
    rw [h]
    dsimp only
    rw [hp]
    dsimp only
    rw [if_pos rfl, if_neg (Bool.false_ne_true)]
    constructor
    · split_ifs <;> first | rfl | rw [mul_one]
    · rfl
  · have h : get_element_value sampleP2O5 ["P2O5_pct"] "P" true =
        some ((10 : ℚ) * 4364) := rfl
    rw [h]
    norm_num
  · rfl

/-- Claim C5: for each of the ten oxide-capable element symbols, resolution
against a schema holding exactly one of its listed oxide-form spellings
returns that field by exact case-sensitive match, and an exact-candidate
match always takes priority over the prefix-scan fallback. -/
theorem C5_oxide_resolution :
    (∀ (fields : List String) (element p : String),
      (allPatterns element).find? (fun q => fields.contains q) = some p →
      find_element_field fields element = some p) ∧
    (["Ti", "Fe", "Mn", "Mg", "Ca", "Na", "K", "P", "Si", "Al"].all (fun e =>
      ((oxide_forms e).getD []).all (fun s =>
        find_element_field [s] e == some s))) = true := by
  constructor
  · intro fields element p h
    unfold find_element_field
    rw [h]
  · decide

/-- Claim C6: when no exact candidate pattern is present in the schema, the
resolver returns the first schema field (in schema order) whose upper-cased
name starts with the upper-cased element symbol with an allow-listed
remainder, and null when no schema field qualifies. -/
theorem C6_prefix_scan_fallback :
    ∀ (fields : List String) (element : String),
      (allPatterns element).find? (fun p => fields.contains p) = none →
      find_element_field fields element =
        fields.find? (fun f =>
          strStarts (strUpper f) (strUpper element) &&
          ["", "_PPM", "_PPB", "_PCT", "_WT", "_WTPCT",
           "_WT_PCT", "(PPM)", " (PPM)", "_[PPM]", "_WT%", "PPM", "PPB",
           "O2_PCT", "O_PCT", "2O3_PCT", "2O_PCT", "2O5_PCT"].contains
            (strDrop (strUpper f) (strLen (strUpper element)))) ∧
      ((∀ f ∈ fields, prefixScanHit (strUpper element) f = false) →
        find_element_field fields element = none) := by
  intro fields element h
  have heq : find_element_field fields element =
      fields.find? (fun f => prefixScanHit (strUpper element) f) := by
    unfold find_element_field
    rw [h]
  constructor
  · exact heq
  · intro hall
    rw [heq, List.find?_eq_none]
    intro f hf
    rw [hall f hf]
    exact Bool.false_ne_true

/-- Claim C1: the derived quantity Mg# equals
100·(MgO/40.304)/((MgO/40.304) + 0.9·FeO/71.844) on the resolved values,
with FeO taken preferentially from a resolved FeO field, else FeOT, else
Fe2O3 × 0.8998; and the result is null — with no exception — whenever MgO
is unresolved, a required field is null/unparseable, or the molar
denominator is ≤ 0.  MgO = 8.0 and FeO = 10.0 give Mg# within 0.1 of
61.3. -/
theorem C1_mg_number :
    (∀ (feature : Feature) (fields : List String) (normalize : Bool)
        (nv : Option NormTable),
      get_custom_element_value feature fields "Mg#" normalize nv =
        mgSharpValue feature fields) ∧
    (∀ (feature : Feature) (fields : List String),
      (find_element_field fields "MgO" = none →
        mgSharpValue feature fields = none) ∧
      (resolvedFeoValue feature fields = none →
        mgSharpValue feature fields = none) ∧
      (∀ mf, find_element_field fields "MgO" = some mf →
        (feature mf).parseFloat = none → mgSharpValue feature fields = none) ∧
      (∀ mf mgo feo, find_element_field fields "MgO" = some mf →
        (feature mf).parseFloat = some mgo →
        resolvedFeoValue feature fields = some feo →
        (mgo / MW_MGO + 0.9 * feo / MW_FEO ≤ 0 →
          mgSharpValue feature fields = none) ∧
        (0 < mgo / MW_MGO + 0.9 * feo / MW_FEO →
          mgSharpValue feature fields =
            some (100 * (mgo / MW_MGO) /
              (mgo / MW_MGO + 0.9 * feo / MW_FEO))))) ∧
    (∀ (feature : Feature) (fields : List String),
      (∀ ff, find_element_field fields "FeO" = some ff →
        resolvedFeoValue feature fields = (feature ff).parseFloat) ∧
      (find_element_field fields "FeO" = none →
        (∀ ff, find_element_field fields "FeOT" = some ff →
          resolvedFeoValue feature fields = (feature ff).parseFloat) ∧
        (find_element_field fields "FeOT" = none →
          (∀ ff, find_element_field fields "Fe2O3" = some ff →
            resolvedFeoValue feature fields =
              ((feature ff).parseFloat).map (fun v => v * 0.8998)) ∧
          (find_element_field fields "Fe2O3" = none →
            resolvedFeoValue feature fields = none)))) ∧
    (∃ q, mgSharpValue sampleMgFe ["MgO_pct", "FeO_pct"] = some q ∧
      |q - 61.3| ≤ 0.1) := by
  refine ⟨fun feature fields normalize nv => rfl,
    fun feature fields => ⟨?_, ?_, ?_, ?_⟩,
    fun feature fields => ⟨?_, ?_⟩, ?_⟩
  · intro h
    unfold mgSharpValue
    cases hfeo : resolvedFeoValue feature fields with
    | none => rfl
    | some fv =>
      dsimp only
      rw [h]
  · intro h
    unfold mgSharpValue
    rw [h]
  · intro mf h hp
    unfold mgSharpValue
    cases hfeo : resolvedFeoValue feature fields with
    | none => rfl
    | some fv =>
      dsimp only
      rw [h]
      dsimp only
      rw [hp]
  · intro mf mgo feo hmf hp hfeo
    unfold mgSharpValue
    rw [hfeo]
    dsimp only
    rw [hmf]
    dsimp only
    rw [hp]
    dsimp only
    unfold mgNumberOf
    constructor
    · intro hle
      rw [if_pos hle]
    · intro hpos
      rw [if_neg (not_le.2 hpos)]
  · intro ff h
    unfold resolvedFeoValue
    rw [h]
  · intro h
    refine ⟨?_, ?_⟩
    · intro ff hT
      unfold resolvedFeoValue
      rw [h]
      dsimp only
      rw [hT]
    · intro hT
      refine ⟨?_, ?_⟩
      · intro ff h3
        unfold resolvedFeoValue
        rw [h, hT]
        dsimp only
        rw [h3]
      · intro h3
        unfold resolvedFeoValue
        rw [h, hT, h3]
  · have h : mgSharpValue sampleMgFe ["MgO_pct", "FeO_pct"] =
        mgNumberOf 8 10 := rfl
    refine ⟨100 * (8 / MW_MGO) / (8 / MW_MGO + 0.9 * 10 / MW_FEO), ?_, ?_⟩
    · rw [h, mgNumberOf, if_neg]
      norm_num [MW_MGO, MW_FEO]
    · rw [abs_le]
      constructor <;> norm_num [MW_MGO, MW_FEO]

/-- Witness for C1: at the concrete sample with MgO = 8 and FeO = 10 the
hypotheses of the formula case hold and the closed formula is produced. -/
theorem C1_mg_number_witness :
    mgSharpValue sampleMgFe ["MgO_pct", "FeO_pct"] =
      some (100 * ((8 : ℚ) / MW_MGO) / (8 / MW_MGO + 0.9 * 10 / MW_FEO)) :=
  ((C1_mg_number.2.1 sampleMgFe ["MgO_pct", "FeO_pct"]).2.2.2 "MgO_pct" 8 10
    (by decide) rfl rfl).2 (by norm_num [MW_MGO, MW_FEO])

/-- Counterexample to claim C3 as stated: over a schema whose only field is
`TiO2_pct` holding 1.0, the custom XY builder's operand value for symbol
`Ti` (normalization off) is 1.0, while the §4.2 converter with
`convert_to_ppm=true` yields 5995.0 — the two disagree, so the builder's
operand is not the `convert_to_ppm=true` value. -/
theorem C3_counterexample :
    get_custom_element_value sampleTi ["TiO2_pct"] "Ti" false none = some 1 ∧
    get_element_value sampleTi ["TiO2_pct"] "Ti" true = some 5995 ∧
    (some (1 : ℚ) ≠ some (5995 : ℚ)) := by
  refine ⟨rfl, ?_, by norm_num⟩
  have h : get_element_value sampleTi ["TiO2_pct"] "Ti" true =
      some ((1 : ℚ) * 5995) := rfl
  rw [h]
  norm_num

/-- Claim C3, amended: for every element symbol other than `Mg#` and
`1 (none)`, the operand value used by the custom XY builder with
normalization off equals the §4.2 converter's value with
`convert_to_ppm=false` — the raw parsed cell value, with no stoichiometric
oxide conversion applied — regardless of any selected normalization
table. -/
theorem C3_custom_operand_raw_value :
    ∀ (feature : Feature) (fields : List String) (element : String)
      (nv : Option NormTable),
      element ≠ "1 (none)" → element ≠ "Mg#" →
      get_custom_element_value feature fields element false nv =
        get_element_value feature fields element false := by
  intro feature fields element nv h1 h2
  unfold get_custom_element_value get_element_value
  rw [if_neg h1, if_neg h2]
  cases find_element_field fields element with
  | none => rfl
  | some fn =>
    dsimp only
    cases (feature fn).parseFloat with
    | none => rfl
    | some v =>
      dsimp only
      cases nv with
      | none => rfl
      | some t =>
        dsimp only
        rw [if_neg (by simp), if_neg (Bool.false_ne_true)]

/-- Witness for C3: at the concrete TiO2 schema the amended equality holds
for the symbol `Ti`. -/
theorem C3_custom_operand_raw_value_witness :
    get_custom_element_value sampleTi ["TiO2_pct"] "Ti" false none =
      get_element_value sampleTi ["TiO2_pct"] "Ti" false :=
  C3_custom_operand_raw_value sampleTi ["TiO2_pct"] "Ti" none
    (by decide) (by decide)

/-- Helper: with a normalization table selected and a positive table entry
for the symbol, a normalized operand is the parsed value divided by the
entry. -/
theorem custom_value_normalized {feature : Feature} {fields : List String}
    {e : String} {t : NormTable} {fn : String} {v nv : ℚ}
    (h1 : e ≠ "1 (none)") (h2 : e ≠ "Mg#")
    (hfind : find_element_field fields e = some fn)
    (hp : (feature fn).parseFloat = some v)
    (hl : normLookup t e = some nv) (hnv : 0 < nv)
    (hne : t.isEmpty = false) :
    get_custom_element_value feature fields e true (some t) = some (v / nv) := by
  unfold get_custom_element_value
  rw [if_neg h1, if_neg h2, hfind]
  dsimp only
  rw [hp]
  dsimp only
  rw [if_pos, hl]
  · dsimp only
    rw [if_pos ⟨ne_of_gt hnv, hnv⟩]
  · rw [hl, hne]
    rfl

/-- Helper: with the normalize flag off, a non-special operand ignores any
selected normalization table. -/
theorem custom_value_unnormalized (feature : Feature) (fields : List String)
    (e : String) (nv : Option NormTable) :
    e ≠ "1 (none)" → e ≠ "Mg#" →
    get_custom_element_value feature fields e false nv =
      get_custom_element_value feature fields e false none := by
  intro h1 h2
  unfold get_custom_element_value
  simp only [if_neg h1, if_neg h2]
  cases find_element_field fields e with
  | none => rfl
  | some fn =>
    dsimp only
    cases (feature fn).parseFloat with
    | none => rfl
    | some v =>
      dsimp only
      cases nv with
      | none => rfl
      | some t =>
        dsimp only
        rw [if_neg (by simp)]

/-- Claim C7: in the custom XY builder with a normalization table selected
(chondrite or primitive mantle), an operand is divided by the table entry
exactly when its symbol is one of the 14 REE symbols — each of which has a
positive entry in both tables — and operands outside the REE set are never
normalized.  With X-numerator La = 2.37, denominator `1 (none)` and
chondrite normalization, X = 2.37/0.237 = 10. -/
theorem C7_ree_normalization :
    (∀ t, (t = CHONDRITE_VALUES ∨ t = PRIMITIVE_MANTLE_VALUES) →
      ∀ e ∈ REE_ELEMENTS, ∃ nv, normLookup t e = some nv ∧ 0 < nv ∧
        ∀ (feature : Feature) (fields : List String) (fn : String) (v : ℚ),
          find_element_field fields e = some fn →
          (feature fn).parseFloat = some v →
          get_custom_element_value feature fields e
            ((some t : Option NormTable).isSome && REE_ELEMENTS.contains e)
            (some t) = some (v / nv)) ∧
    (∀ (t : NormTable) (e : String), e ∉ REE_ELEMENTS →
      ∀ (feature : Feature) (fields : List String),
        e ≠ "1 (none)" → e ≠ "Mg#" →
        get_custom_element_value feature fields e
          ((some t : Option NormTable).isSome && REE_ELEMENTS.contains e)
          (some t) =
          get_custom_element_value feature fields e false none) ∧
    customAxisValue sampleLa ["La"] "La" "1 (none)"
      (some CHONDRITE_VALUES) = some 10 := by
  refine ⟨?_, ?_, ?_⟩
  · intro t ht e he
    rcases ht with rfl | rfl <;> fin_cases he <;>
      exact ⟨_, rfl, by norm_num, fun feature fields fn v hf hp =>
        custom_value_normalized (by decide) (by decide) hf hp rfl
          (by norm_num) rfl⟩
  · intro t e he feature fields h1 h2
    have hc : REE_ELEMENTS.contains e = false := by
      cases hcc : REE_ELEMENTS.contains e
      · rfl
      · exact absurd (List.mem_of_elem_eq_true hcc) he
    have harg : ((some t : Option NormTable).isSome &&
        REE_ELEMENTS.contains e) = false := by
      rw [hc, Bool.and_false]
    rw [harg]
    exact custom_value_unnormalized feature fields e (some t) h1 h2
  · have hn : get_custom_element_value sampleLa ["La"] "La"
        ((some CHONDRITE_VALUES : Option NormTable).isSome &&
          REE_ELEMENTS.contains "La") (some CHONDRITE_VALUES) =
        some (2.37 / 0.237) :=
      custom_value_normalized (by decide) (by decide) rfl rfl rfl
        (by norm_num) rfl
    have hd : get_custom_element_value sampleLa ["La"] "1 (none)"
        ((some CHONDRITE_VALUES : Option NormTable).isSome &&
          REE_ELEMENTS.contains "1 (none)") (some CHONDRITE_VALUES) =
        some 1 := rfl
    unfold customAxisValue
    rw [hn, hd]
    dsimp only
    rw [if_pos ⟨by norm_num, one_pos⟩]
    norm_num

/-- Witness for C4: the conversion case applied at the concrete P2O5
sample. -/
theorem C4_get_element_value_conversion_witness :
    get_element_value sampleP2O5 ["P2O5_pct"] "P" true =
      some (10 * conversionFactor "P2O5_pct") ∧
    get_element_value sampleP2O5 ["P2O5_pct"] "P" false = some 10 :=
  (C4_get_element_value_conversion.1 sampleP2O5 ["P2O5_pct"] "P").2.2
    "P2O5_pct" 10 (by decide) rfl

/-- Witness for C5: the exact-candidate priority applied at the schema
holding only `TiO2_pct`. -/
theorem C5_oxide_resolution_witness :
    find_element_field ["TiO2_pct"] "Ti" = some "TiO2_pct" :=
  C5_oxide_resolution.1 ["TiO2_pct"] "Ti" "TiO2_pct" (by decide)

/-- Witness for C6: the prefix-scan fallback applied at the schema holding
only `ZRPPM`, which resolves for `Zr`. -/
theorem C6_prefix_scan_fallback_witness :
    find_element_field ["ZRPPM"] "Zr" =
      ["ZRPPM"].find? (fun f =>
        strStarts (strUpper f) (strUpper "Zr") &&
        ["", "_PPM", "_PPB", "_PCT", "_WT", "_WTPCT",
         "_WT_PCT", "(PPM)", " (PPM)", "_[PPM]", "_WT%", "PPM", "PPB",
         "O2_PCT", "O_PCT", "2O3_PCT", "2O_PCT", "2O5_PCT"].contains
          (strDrop (strUpper f) (strLen (strUpper "Zr")))) :=
  (C6_prefix_scan_fallback ["ZRPPM"] "Zr" (by decide)).1

/-- Witness for C7: chondrite normalization of La at the concrete sample
with La = 2.37 divides by the table entry. -/
theorem C7_ree_normalization_witness :
    get_custom_element_value sampleLa ["La"] "La"
      ((some CHONDRITE_VALUES : Option NormTable).isSome &&
        REE_ELEMENTS.contains "La") (some CHONDRITE_VALUES) =
      some (2.37 / 0.237) := by
  obtain ⟨nv, hl, hpos, hall⟩ :=
    C7_ree_normalization.1 CHONDRITE_VALUES (Or.inl rfl) "La" (by decide)
  have h0 : some (0.237 : ℚ) = some nv :=
    (rfl : normLookup CHONDRITE_VALUES "La" = some 0.237).symm.trans hl
  obtain rfl := Option.some.inj h0
  exact hall sampleLa ["La"] "La" 2.37 rfl rfl

/-- Helper: insertion keeps exactly the old members plus the new string. -/
theorem mem_insertSortedStr {a s : String} :
    ∀ {l : List String}, a ∈ insertSortedStr s l ↔ a = s ∨ a ∈ l := by
  intro l
  induction l with
  | nil => simp [insertSortedStr]
  | cons t ts ih =>
    unfold insertSortedStr
    split_ifs with h
    · simp
    · simp only [List.mem_cons, ih]
      tauto

/-- Helper: sorting preserves membership. -/
theorem mem_sortStrings {a : String} {l : List String} :
    a ∈ sortStrings l ↔ a ∈ l := by
  induction l with
  | nil => simp [sortStrings]
  | cons t ts ih =>
    unfold sortStrings at ih ⊢
    rw [List.foldr_cons, mem_insertSortedStr, ih, List.mem_cons]

/-- Helper: membership in the missing list is membership among the needed
symbols together with failed resolution. -/
theorem mem_missingElements {fields syms : List String} {e : String} :
    e ∈ missingElements fields syms ↔
      e ∈ neededElements syms ∧ find_element_field fields e = none := by
  unfold missingElements
  rw [List.mem_filter, mem_sortStrings, Option.isNone_iff_eq_none]

/-- Claim C2, amended: the custom XY builder fails before computing any
coordinates with a "missing elements" condition naming exactly the
unresolvable needed symbols if and only if some needed symbol has no
resolvable field; the `1 (none)` pseudo-element requires nothing, and `Mg#`
requires both `MgO` and — literally — `FeO` to be resolvable (the
FeOT/Fe2O3 fallbacks of the per-sample Mg# computation are not consulted
by this pre-check); when no needed symbol is missing, coordinate
computation proceeds. -/
theorem C2_missing_check :
    (∀ (features : List Feature) (fields : List String)
        (xn xd yn yd : String) (nv : Option NormTable),
      (generate_custom_xy_plot features fields xn xd yn yd nv =
          XYResult.missing (missingElements fields [xn, xd, yn, yd]) ↔
        missingElements fields [xn, xd, yn, yd] ≠ []) ∧
      (missingElements fields [xn, xd, yn, yd] = [] →
        ∀ m, generate_custom_xy_plot features fields xn xd yn yd nv ≠
          XYResult.missing m)) ∧
    (∀ (fields syms : List String), missingElements fields syms ≠ [] ↔
      ∃ e ∈ neededElements syms, find_element_field fields e = none) ∧
    (∀ (fields syms : List String) (e : String),
      e ∈ missingElements fields syms ↔
        e ∈ neededElements syms ∧ find_element_field fields e = none) ∧
    (∀ (syms : List String) (e : String), e ∈ neededElements syms ↔
      ((e ∈ syms ∧ e ≠ "1 (none)" ∧ e ≠ "Mg#") ∨
       ("Mg#" ∈ syms ∧ (e = "MgO" ∨ e = "FeO")))) := by
  refine ⟨?_, ?_, fun fields syms e => mem_missingElements, ?_⟩
  · intro features fields xn xd yn yd nv
    unfold generate_custom_xy_plot
    cases hmm : missingElements fields [xn, xd, yn, yd] with
    | nil =>
      dsimp only
      rw [if_pos (show ([] : List String).isEmpty = true from rfl)]
      refine ⟨⟨fun h => ?_, fun h => absurd rfl h⟩, fun _ m h => ?_⟩
      · split at h <;> exact XYResult.noConfusion h
      · split at h <;> exact XYResult.noConfusion h
    | cons a as =>
      dsimp only
      rw [if_neg (by simp)]
      exact ⟨⟨fun _ => List.cons_ne_nil a as, fun _ => rfl⟩,
        fun h => absurd h (List.cons_ne_nil a as)⟩
  · intro fields syms
    rw [Ne, List.eq_nil_iff_forall_not_mem]
    push_neg
    constructor
    · rintro ⟨e, he⟩
      exact ⟨e, mem_missingElements.1 he⟩
    · rintro ⟨e, h1, h2⟩
      exact ⟨e, mem_missingElements.2 ⟨h1, h2⟩⟩
  · intro syms e
    unfold neededElements
    rw [List.mem_dedup, List.mem_flatMap]
    constructor
    · rintro ⟨s, hs, he⟩
      by_cases h1 : s = "1 (none)"
      · subst h1
        rw [if_pos rfl] at he
        exact absurd he (List.not_mem_nil e)
      · by_cases h2 : s = "Mg#"
        · subst h2
          rw [if_neg (by decide), if_pos rfl] at he
          right
          refine ⟨hs, ?_⟩
          simpa using he
        · rw [if_neg h1, if_neg h2] at he
          have he' : e = s := by simpa using he
          subst he'
          exact Or.inl ⟨hs, h1, h2⟩
    · rintro (⟨hs, h1, h2⟩ | ⟨hs, he⟩)
      · exact ⟨e, hs, by rw [if_neg h1, if_neg h2]; simp⟩
      · refine ⟨"Mg#", hs, ?_⟩
        rw [if_neg (by decide), if_pos rfl]
        rcases he with rfl | rfl <;> simp

/-- Counterexample to claim C2 as stated: over the schema
`{MgO_pct, FeOT_pct}` with axes X = Mg# (over 1) and Y = MgO (over 1), the
symbols MgO and FeOT both resolve — so by the claim's rule no required
symbol is missing and computation should proceed (and indeed the per-sample
Mg# value is computable via the FeOT fallback) — yet the builder fails with
"missing elements: FeO". -/
theorem C2_counterexample :
    find_element_field ["MgO_pct", "FeOT_pct"] "MgO" = some "MgO_pct" ∧
    find_element_field ["MgO_pct", "FeOT_pct"] "FeOT" = some "FeOT_pct" ∧
    missingElements ["MgO_pct", "FeOT_pct"]
      ["Mg#", "1 (none)", "MgO", "1 (none)"] = ["FeO"] ∧
    generate_custom_xy_plot [sampleMgFeOT] ["MgO_pct", "FeOT_pct"]
      "Mg#" "1 (none)" "MgO" "1 (none)" none = XYResult.missing ["FeO"] ∧
    (∃ q, get_custom_element_value sampleMgFeOT ["MgO_pct", "FeOT_pct"]
      "Mg#" false none = some q) := by
  refine ⟨by decide, by decide, by decide, by decide, ?_⟩
  have h : get_custom_element_value sampleMgFeOT ["MgO_pct", "FeOT_pct"]
      "Mg#" false none = mgNumberOf 8 10 := rfl
  refine ⟨100 * (8 / MW_MGO) / (8 / MW_MGO + 0.9 * 10 / MW_FEO), ?_⟩
  rw [h, mgNumberOf, if_neg]
  norm_num [MW_MGO, MW_FEO]

/-- Witness for C2: with the single symbol Nb over a schema containing Nb,
nothing is missing and the builder does not fail with a missing-elements
condition. -/
theorem C2_missing_check_witness :
    missingElements ["Nb"] ["Nb", "1 (none)", "1 (none)", "1 (none)"] = [] ∧
    ∀ m, generate_custom_xy_plot [] ["Nb"] "Nb" "1 (none)" "1 (none)"
      "1 (none)" none ≠ XYResult.missing m :=
  ⟨by decide,
    (C2_missing_check.1 [] ["Nb"] "Nb" "1 (none)" "1 (none)" "1 (none)"
      none).2 (by decide)⟩

/-- Claim C8: the ternary transform is NaN (here: `none`) exactly on zero
component sum, otherwise projects the sum-normalized components as
x = 0.5·(2b′+c′), y = (√3/2)·c′ (the second returned component is the
coefficient of √3, so y = snd·√3); and for strictly positive components the
projected point lies inside the closed triangle with vertices (0,0), (1,0),
(1/2, √3/2). -/
theorem C8_ternary_projection :
    (∀ a b c : ℚ, a + b + c = 0 → ternary_to_cartesian a b c = none) ∧
    (∀ a b c : ℚ, a + b + c ≠ 0 → ternary_to_cartesian a b c =
      some (0.5 * (2 * (b / (a + b + c)) + c / (a + b + c)),
        (c / (a + b + c)) / 2)) ∧
    (∀ a b c : ℚ, 0 < a → 0 < b → 0 < c →
      ∀ p, ternary_to_cartesian a b c = some p →
        inUnitTriangle (p.1 : ℝ) ((p.2 : ℝ) * Real.sqrt 3)) := by
  refine ⟨?_, ?_, ?_⟩
  · intro a b c h
    unfold ternary_to_cartesian
    rw [if_pos h]
  · intro a b c h
    unfold ternary_to_cartesian
    rw [if_neg h]
  · intro a b c ha hb hc p hp
    have hs : (0 : ℚ) < a + b + c := by linarith
    have hs' : a + b + c ≠ 0 := ne_of_gt hs
    unfold ternary_to_cartesian at hp
    rw [if_neg hs'] at hp
    dsimp only at hp
    obtain rfl := Option.some.inj hp
    have haR : (0 : ℝ) < (a : ℝ) := by exact_mod_cast ha
    have hbR : (0 : ℝ) < (b : ℝ) := by exact_mod_cast hb
    have hcR : (0 : ℝ) < (c : ℝ) := by exact_mod_cast hc
    have hsR : (0 : ℝ) < (a : ℝ) + (b : ℝ) + (c : ℝ) := by linarith
    have hsR' : (a : ℝ) + (b : ℝ) + (c : ℝ) ≠ 0 := ne_of_gt hsR
    refine ⟨(a : ℝ) / ((a : ℝ) + (b : ℝ) + (c : ℝ)),
      (b : ℝ) / ((a : ℝ) + (b : ℝ) + (c : ℝ)),
      (c : ℝ) / ((a : ℝ) + (b : ℝ) + (c : ℝ)),
      div_nonneg haR.le hsR.le, div_nonneg hbR.le hsR.le,
      div_nonneg hcR.le hsR.le, ?_, ?_, ?_⟩
    · field_simp
    · push_cast
      field_simp
      try ring
    · push_cast
      field_simp
      try ring

/-- Witness for C8: at a = b = c = 1 the projection exists and lies in the
closed unit triangle. -/
theorem C8_ternary_projection_witness :
    ∃ p : ℚ × ℚ, ternary_to_cartesian 1 1 1 = some p ∧
      inUnitTriangle (p.1 : ℝ) ((p.2 : ℝ) * Real.sqrt 3) := by
  have h2 := C8_ternary_projection.2.1 1 1 1 (by norm_num)
  exact ⟨_, h2, C8_ternary_projection.2.2 1 1 1 (by norm_num) (by norm_num)
    (by norm_num) _ h2⟩

/-- Claim C9: the Nb-vs-Y diagram's coordinate calculation returns the
swapped pair (Y value, Nb value) exactly when both resolved values are
non-null and strictly positive, and (null, null) otherwise; Nb = 10, Y = 5
gives (5, 10), and Y = 0 gives (null, null). -/
theorem C9_pearce_axis_swap :
    (∀ (feature : Feature) (fields : List String) (nbv yv : ℚ),
      get_element_value feature fields "Nb" true = some nbv →
      get_element_value feature fields "Y" true = some yv →
      (Pearce1984_YNb_calc feature fields = (some yv, some nbv) ↔
        (0 < nbv ∧ 0 < yv))) ∧
    (∀ (feature : Feature) (fields : List String),
      (get_element_value feature fields "Nb" true = none ∨
       get_element_value feature fields "Y" true = none) →
      Pearce1984_YNb_calc feature fields = (none, none)) ∧
    (∀ (feature : Feature) (fields : List String) (nbv yv : ℚ),
      get_element_value feature fields "Nb" true = some nbv →
      get_element_value feature fields "Y" true = some yv →
      ¬(0 < nbv ∧ 0 < yv) →
      Pearce1984_YNb_calc feature fields = (none, none)) ∧
    Pearce1984_YNb_calc sampleNbY ["Nb", "Y"] = (some 5, some 10) ∧
    Pearce1984_YNb_calc sampleNbY0 ["Nb", "Y"] = (none, none) := by
  refine ⟨?_, ?_, ?_, ?_, ?_⟩
  · intro feature fields nbv yv hnb hy
    unfold Pearce1984_YNb_calc
    rw [hnb, hy]
    dsimp only
    split_ifs with h
    · exact iff_of_true rfl h
    · exact iff_of_false (by simp) h
  · intro feature fields h
    unfold Pearce1984_YNb_calc
    rcases h with h | h
    · rw [h]
    · cases hnb : get_element_value feature fields "Nb" true with
      | none => rfl
      | some nb =>
        rw [h]
  · intro feature fields nbv yv hnb hy h
    unfold Pearce1984_YNb_calc
    rw [hnb, hy]
    dsimp only
    rw [if_neg h]
  · have h : Pearce1984_YNb_calc sampleNbY ["Nb", "Y"] =
        if 0 < (10 : ℚ) ∧ 0 < (5 : ℚ) then (some (5 : ℚ), some (10 : ℚ))
        else (none, none) := rfl
    rw [h, if_pos (by norm_num)]
  · have h : Pearce1984_YNb_calc sampleNbY0 ["Nb", "Y"] =
        if 0 < (10 : ℚ) ∧ 0 < (0 : ℚ) then (some (0 : ℚ), some (10 : ℚ))
        else (none, none) := rfl
    rw [h, if_neg (by norm_num)]

/-- Witness for C9: the swap equivalence applied at the concrete sample
with Nb = 10 and Y = 5. -/
theorem C9_pearce_axis_swap_witness :
    Pearce1984_YNb_calc sampleNbY ["Nb", "Y"] = (some 5, some 10) ↔
      (0 < (10 : ℚ) ∧ 0 < (5 : ℚ)) :=
  C9_pearce_axis_swap.1 sampleNbY ["Nb", "Y"] 10 5 rfl rfl

/-- Claim C10 (implicit edge case): a sample with Zr = Nb = Y = 0 passes the
Meschede diagram's ≥ 0 validity rule, yielding the non-null triple
(0, 0, 0) and counting as valid, yet its ternary projection is NaN
(`none`), so the reported valid count strictly exceeds the number of
points actually plottable. -/
theorem C10_meschede_zero_valid_unplottable :
    Meschede1986_calc sampleZero ["Zr", "Nb", "Y"] =
      (some 0, some 0, some 0) ∧
    discrimValidCount [Meschede1986_calc sampleZero ["Zr", "Nb", "Y"]] = 1 ∧
    ternary_to_cartesian 0 0 0 = none ∧
    ternaryPlottedCount [Meschede1986_calc sampleZero ["Zr", "Nb", "Y"]] = 0 ∧
    ternaryPlottedCount [Meschede1986_calc sampleZero ["Zr", "Nb", "Y"]] <
      discrimValidCount [Meschede1986_calc sampleZero ["Zr", "Nb", "Y"]] := by
  have h : Meschede1986_calc sampleZero ["Zr", "Nb", "Y"] =
      if (0 : ℚ) ≤ 0 ∧ (0 : ℚ) ≤ 0 ∧ (0 : ℚ) ≤ 0
      then (some ((0 : ℚ) / 4), some (0 : ℚ), some ((0 : ℚ) * 2))
      else (none, none, none) := rfl
  have h04 : ((0 : ℚ) / 4) = 0 := by norm_num
  have h02 : ((0 : ℚ) * 2) = 0 := by norm_num
  have hc : Meschede1986_calc sampleZero ["Zr", "Nb", "Y"] =
      (some 0, some 0, some 0) := by
    rw [h, if_pos (by norm_num), h04, h02]
  have ht : ternary_to_cartesian 0 0 0 = none := by
    unfold ternary_to_cartesian
    rw [if_pos (show (0 : ℚ) + 0 + 0 = 0 by norm_num)]
  refine ⟨hc, ?_, ht, ?_, ?_⟩
  · rw [hc]
    rfl
  · rw [hc]
    simp [ternaryPlottedCount, ht]
  · rw [hc]
    simp [ternaryPlottedCount, discrimValidCount, ht]

end GeochemPlots
